import Mathlib

/-!
# Verification of the product-inventory data-synchronization and view-projection engine

Shallow embedding of the core of the repository:

* `src/utils/api.ts` (the `productApi` object and its localStorage helpers):
  reconciliation of remote and local product lists, local create.
* `src/store/productSlice.ts`: the Redux state container — `filterAndSortProducts`,
  the synchronous reducers, the `extraReducers` lifecycle cases, and the
  localStorage snapshot save/load.
* `src/components/SearchFilter.tsx`: the `handleSortChange` sort-toggle handler.

Machine numbers are modelled as `Nat`/`Int` (ids are clock-derived naturals,
prices are integers — no claim depends on fractional prices), JS strings as
`String`, optional TS fields as `Option`, and the two sources of randomness in
stock synthesis as explicit oracle arguments.  JS `Array.prototype.sort`
(stable per ES2019) is modelled by `List.mergeSort` over the boolean relation
`cmp a b ≤ 0`, and `String.prototype.localeCompare` as a total sign-valued
comparison derived from `compare` on `String`.
-/

/-- `rating` field of a Product (`src/types/Product.ts`): `{rate, count}`.
The remote decimal `rate` is modelled as an integer (no claim reads it). -/
structure Rating where
  rate : Int
  count : Nat
deriving DecidableEq, Repr

/-- `Product` (`src/types/Product.ts`).  `stock` and `inStock` are optional in
the TS interface, hence `Option` here.  `id` is a clock-derived number (`Nat`),
`price` a number (modelled as `Int`). -/
structure Product where
  id : Nat
  title : String
  price : Int
  description : String
  category : String
  image : String
  rating : Rating
  stock : Option Nat
  inStock : Option Bool
deriving DecidableEq, Repr

/-- `ProductFormData` (`src/types/Product.ts`): the fields of the create form. -/
structure ProductFormData where
  title : String
  price : Int
  description : String
  category : String
  image : String
  stock : Nat
deriving DecidableEq, Repr

/-- `Partial<ProductFormData>` as used by the update thunk: every field optional. -/
structure PartialFormData where
  title : Option String
  price : Option Int
  description : Option String
  category : Option String
  image : Option String
  stock : Option Nat
deriving DecidableEq, Repr

/-- The `sortBy` enum of `ProductState`: `'name' | 'price' | 'none'`. -/
inductive SortBy where
  | name
  | price
  | none
deriving DecidableEq, Repr

/-- The `sortOrder` enum of `ProductState`: `'asc' | 'desc'`. -/
inductive SortOrder where
  | asc
  | desc
deriving DecidableEq, Repr

/-- `ProductState` (`src/types/Product.ts`): the slice state. -/
structure ProductState where
  products : List Product
  filteredProducts : List Product
  loading : Bool
  error : Option String
  searchTerm : String
  selectedCategory : String
  sortBy : SortBy
  sortOrder : SortOrder
deriving DecidableEq, Repr

/-! ## String helpers

JS `hay.includes(needle)` — contiguous-substring containment — modelled on the
character lists of the two strings; `String.prototype.toLowerCase` is modelled
by `String.toLower`. -/

/-- `leadsWith needle hay`: `needle` is an initial segment of `hay` (char lists). -/
def leadsWith : List Char → List Char → Bool
  | [], _ => true
  | _ :: _, [] => false
  | a :: as, b :: bs => a == b && leadsWith as bs

/-- `subAt needle hay`: `needle` occurs contiguously somewhere in `hay`. -/
def subAt : List Char → List Char → Bool
  | n, [] => leadsWith n []
  | n, c :: cs => leadsWith n (c :: cs) || subAt n cs

/-- JS `hay.includes(needle)` on strings. -/
def strIncludes (hay needle : String) : Bool :=
  subAt needle.data hay.data

/-- Model of `a.localeCompare(b)`: a total, sign-valued string comparison
(the embedding fixes the locale order to the `Ord String` order; both the
source embedding and the spec reference below use this same model). -/
def localeCompare (a b : String) : Int :=
  match compare a b with
  | Ordering.lt => -1
  | Ordering.eq => 0
  | Ordering.gt => 1

/-- Stable sort by a JS-style sign comparator: JS `Array.prototype.sort(cmp)`
(stable per ES2019), modelled as a stable merge sort keeping `a` before `b`
whenever `cmp a b ≤ 0`. -/
def stableSortBy (cmp : Product → Product → Int) (l : List Product) : List Product :=
  l.mergeSort (fun a b => cmp a b ≤ 0)

/-! ## Local storage and the reconciliation engine (`src/utils/api.ts`) -/

/-- The dedup pass of `getAllProducts`
(`allProducts.filter((product, index, self) => index === self.findIndex(p => p.id === product.id))`):
an element is kept exactly when no earlier element of the list has its `id`.
`seen` accumulates the ids of the elements already traversed (an element is
dropped exactly when its id was already seen, so `seen` is membership-equal to
the set of all earlier ids). -/
def dedupByIdAux (seen : List Nat) : List Product → List Product
  | [] => []
  | p :: ps =>
    if p.id ∈ seen then dedupByIdAux seen ps
    else p :: dedupByIdAux (p.id :: seen) ps

/-- Keep the first occurrence of each `id` (the JS `filter`/`findIndex` dedup). -/
def dedupById (l : List Product) : List Product :=
  dedupByIdAux [] l

/-- The reconciliation merge inside `getAllProducts` (api.ts lines 100–112):
concatenate local products before API products, then deduplicate by id keeping
the first occurrence. -/
def mergeProducts (localProducts apiProducts : List Product) : List Product :=
  dedupById (localProducts ++ apiProducts)

/-- Stock synthesis applied to each remote record (api.ts lines 93–97):
`stock = Math.floor(Math.random()*100)+1`, `inStock = Math.random() > 0.1`.
The two random draws for the record at position `i` are supplied by the oracle
`rand i`. -/
def synthesizeStock (rand : Nat → Nat × Bool) (resp : List Product) : List Product :=
  resp.enum.map (fun ip =>
    { ip.2 with stock := some (rand ip.1).1, inStock := some (rand ip.1).2 })

/-- `productApi.getAllProducts` (api.ts lines 89–117).  `remote` is the outcome
of `api.get('/products')`: `some resp` on success, `Option.none` when the
network call fails (the `catch` branch, which returns the stored local products
unchanged).  On success the response records get synthesized stock fields and
are merged after the local products with first-occurrence dedup. -/
def getAllProducts (rand : Nat → Nat × Bool) (remote : Option (List Product))
    (localProducts : List Product) : List Product :=
  match remote with
  | some resp => mergeProducts localProducts (synthesizeStock rand resp)
  | Option.none => localProducts

/-- The record built by `productApi.createProduct` (api.ts lines 145–155):
`id = Date.now()` (the clock reading `now`), `rating = {rate: 0, count: 0}`,
`inStock = productData.stock > 0`. -/
def buildNewProduct (now : Nat) (d : ProductFormData) : Product :=
  { id := now
    title := d.title
    price := d.price
    description := d.description
    category := d.category
    image := d.image
    rating := { rate := 0, count := 0 }
    stock := some d.stock
    inStock := some (decide (d.stock > 0)) }

/-- `addLocalProduct` (api.ts lines 33–37): `unshift` the new record onto the
stored local sequence. -/
def addLocalProduct (p : Product) (store : List Product) : List Product :=
  p :: store

/-- One `createProduct` call acting on the stored local sequence: build the new
record from the clock reading and the form data, then `addLocalProduct` it. -/
def createStep (store : List Product) (call : Nat × ProductFormData) : List Product :=
  addLocalProduct (buildNewProduct call.1 call.2) store

/-- Run a chronological sequence of `createProduct` calls (each paired with its
`Date.now()` reading) against an initially empty local store. -/
def runCreates (calls : List (Nat × ProductFormData)) : List Product :=
  calls.foldl createStep []

/-! ## The projection engine and the state container (`src/store/productSlice.ts`) -/

/-- The comparator passed to `filtered.sort` (productSlice.ts lines 114–129):
`name` compares titles via `localeCompare`, `price` subtracts prices, the
`default` branch returns 0, and the sign is flipped when `sortOrder == 'desc'`. -/
def sortComparator (sortBy : SortBy) (sortOrder : SortOrder)
    (a b : Product) : Int :=
  let comparison :=
    match sortBy with
    | SortBy.name => localeCompare a.title b.title
    | SortBy.price => a.price - b.price
    | SortBy.none => 0
  if sortOrder == SortOrder.desc then -comparison else comparison

/-- The filtered list computed by `filterAndSortProducts` (productSlice.ts
lines 96–133) from the products and the filter fields of the state: search
filter when `searchTerm` is truthy (non-empty), category filter when
`selectedCategory !== 'all'`, then the stable sort when `sortBy !== 'none'`. -/
def filteredList (products : List Product) (searchTerm selectedCategory : String)
    (sortBy : SortBy) (sortOrder : SortOrder) : List Product :=
  let afterSearch :=
    if searchTerm ≠ "" then
      products.filter (fun product =>
        strIncludes product.title.toLower searchTerm.toLower ||
        strIncludes product.description.toLower searchTerm.toLower)
    else products
  let afterCategory :=
    if selectedCategory ≠ "all" then
      afterSearch.filter (fun product => product.category == selectedCategory)
    else afterSearch
  if sortBy ≠ SortBy.none then
    stableSortBy (sortComparator sortBy sortOrder) afterCategory
  else afterCategory

/-- `filterAndSortProducts(state)` (productSlice.ts lines 96–133): recompute
`state.filteredProducts` from the current products and filter settings. -/
def filterAndSortProducts (state : ProductState) : ProductState :=
  { state with
    filteredProducts :=
      filteredList state.products state.searchTerm state.selectedCategory
        state.sortBy state.sortOrder }

/-- The field merge `{...products[index], ...data}` of the `updateProduct.fulfilled`
case: a present field of the partial form data overrides the record's field
(`inStock` is not part of the form data and is left as is). -/
def mergeProductData (p : Product) (d : PartialFormData) : Product :=
  { p with
    title := d.title.getD p.title
    price := d.price.getD p.price
    description := d.description.getD p.description
    category := d.category.getD p.category
    image := d.image.getD p.image
    stock := d.stock.or p.stock }

/-- Replace the first record with the given id by its field-merge with `data`
(`findIndex` + in-place assignment of `updateProduct.fulfilled`). -/
def updateById (id : Nat) (d : PartialFormData) : List Product → List Product
  | [] => []
  | p :: ps =>
    if p.id == id then mergeProductData p d :: ps
    else p :: updateById id d ps

/-- Set `stock`/`inStock` on the first record with the given id
(the `updateProductStock` reducer's in-place mutation of the found product). -/
def setStockById (id : Nat) (stock : Nat) (inStock : Bool) :
    List Product → List Product
  | [] => []
  | p :: ps =>
    if p.id == id then { p with stock := some stock, inStock := some inStock } :: ps
    else p :: setStockById id stock inStock ps

/-- The actions handled by the slice: the synchronous reducers and every
pending/fulfilled/rejected lifecycle case registered in `extraReducers`
(productSlice.ts lines 139–231).  `updateProduct` and `deleteProduct` register
no `pending` case in the source, so none is modelled. -/
inductive SliceAction where
  | setSearchTerm (term : String)
  | setSelectedCategory (category : String)
  | setSorting (sortBy : SortBy) (sortOrder : SortOrder)
  | clearError
  | updateProductStock (id : Nat) (stock : Nat) (inStock : Bool)
  | fetchPending
  | fetchFulfilled (payload : List Product)
  | fetchRejected (message : String)
  | createPending
  | createFulfilled (payload : Product)
  | createRejected (message : String)
  | updateFulfilled (id : Nat) (data : PartialFormData)
  | updateRejected (message : String)
  | deleteFulfilled (id : Nat)
  | deleteRejected (message : String)
deriving DecidableEq, Repr

/-- The slice reducer (productSlice.ts lines 136–232), case by case.  The
`saveStateToStorage` calls are side effects on the durable store and do not
change the state; they are modelled separately by `saveStateToStorage` below. -/
def productReducer (a : SliceAction) (s : ProductState) : ProductState :=
  match a with
  | SliceAction.setSearchTerm term =>
    filterAndSortProducts { s with searchTerm := term }
  | SliceAction.setSelectedCategory category =>
    filterAndSortProducts { s with selectedCategory := category }
  | SliceAction.setSorting sortBy sortOrder =>
    filterAndSortProducts { s with sortBy := sortBy, sortOrder := sortOrder }
  | SliceAction.clearError =>
    { s with error := Option.none }
  | SliceAction.updateProductStock id stock inStock =>
    if s.products.any (fun p => p.id == id) then
      filterAndSortProducts { s with products := setStockById id stock inStock s.products }
    else s
  | SliceAction.fetchPending =>
    { s with loading := true, error := Option.none }
  | SliceAction.fetchFulfilled payload =>
    filterAndSortProducts { s with loading := false, products := payload }
  | SliceAction.fetchRejected message =>
    { s with loading := false, error := some message }
  | SliceAction.createPending =>
    { s with loading := true, error := Option.none }
  | SliceAction.createFulfilled payload =>
    filterAndSortProducts { s with loading := false, products := payload :: s.products }
  | SliceAction.createRejected message =>
    { s with loading := false, error := some message }
  | SliceAction.updateFulfilled id data =>
    if s.products.any (fun p => p.id == id) then
      filterAndSortProducts { s with products := updateById id data s.products }
    else s
  | SliceAction.updateRejected message =>
    { s with error := some message }
  | SliceAction.deleteFulfilled id =>
    filterAndSortProducts { s with products := s.products.filter (fun p => p.id != id) }
  | SliceAction.deleteRejected message =>
    { s with error := some message }

/-- `handleSortChange` (`src/components/SearchFilter.tsx` lines 16–27): when the
requested field equals the current `sortBy`, dispatch `setSorting` with the
order toggled; otherwise dispatch it with ascending order. -/
def handleSortChange (s : ProductState) (newSortBy : SortBy) : ProductState :=
  if newSortBy == s.sortBy then
    productReducer (SliceAction.setSorting newSortBy
      (if s.sortOrder == SortOrder.asc then SortOrder.desc else SortOrder.asc)) s
  else
    productReducer (SliceAction.setSorting newSortBy SortOrder.asc) s

/-! ## Durable-store snapshot (productSlice.ts lines 6–31)

`saveStateToStorage` serializes exactly five fields with `JSON.stringify`;
`loadStateFromStorage` parses them back and the result is spread over the
defaults of `initialState`.  JSON round-tripping of these field types is the
identity in the JS runtime, so the serialized blob is modelled by the
structured snapshot itself. -/

/-- The serialized snapshot: the five fields written by `saveStateToStorage`. -/
structure Snapshot where
  products : List Product
  searchTerm : String
  selectedCategory : String
  sortBy : SortBy
  sortOrder : SortOrder
deriving DecidableEq, Repr

/-- `saveStateToStorage(state)`: write the five persisted fields. -/
def saveStateToStorage (s : ProductState) : Snapshot :=
  { products := s.products
    searchTerm := s.searchTerm
    selectedCategory := s.selectedCategory
    sortBy := s.sortBy
    sortOrder := s.sortOrder }

/-- `{...defaults, ...loadStateFromStorage()}` (productSlice.ts lines 34–44):
a stored snapshot overrides the corresponding fields of the base state; a
missing or unparsable snapshot (`Option.none`) leaves the defaults. -/
def loadStateFromStorage (base : ProductState) (stored : Option Snapshot) : ProductState :=
  match stored with
  | Option.none => base
  | some snap =>
    { base with
      products := snap.products
      searchTerm := snap.searchTerm
      selectedCategory := snap.selectedCategory
      sortBy := snap.sortBy
      sortOrder := snap.sortOrder }

/-! ## Reference definition of the projection, from the spec's words (§4.5)

Used only for the refinement claim C3: steps 1–3 as the spec states them,
to be compared with `filteredList`, which is embedded from the source. -/

/-- Spec §4.5 step sign rule: reverse the comparator's sign when `sortOrder == desc`. -/
def specSign (o : SortOrder) (c : Int) : Int :=
  if o == SortOrder.desc then -c else c

/-- The Projection Engine as the spec describes it: (1) when `searchTerm` is
non-empty keep products whose case-folded title or description contains the
case-folded search term as a substring; (2) when `selectedCategory ≠ "all"`
keep products whose category equals it exactly; (3) when `sortBy ≠ none`
stable-sort by locale-aware title comparison (`name`) or numeric price
(`price`), reversing the comparator's sign when `sortOrder = desc`. -/
def projectSpec (products : List Product) (searchTerm selectedCategory : String)
    (sortBy : SortBy) (sortOrder : SortOrder) : List Product :=
  let step1 :=
    if searchTerm = "" then products
    else products.filter (fun p =>
      strIncludes p.title.toLower searchTerm.toLower ||
      strIncludes p.description.toLower searchTerm.toLower)
  let step2 :=
    if selectedCategory = "all" then step1
    else step1.filter (fun p => p.category == selectedCategory)
  match sortBy with
  | SortBy.none => step2
  | SortBy.name =>
    stableSortBy (fun a b => specSign sortOrder (localeCompare a.title b.title)) step2
  | SortBy.price =>
    stableSortBy (fun a b => specSign sortOrder (a.price - b.price)) step2

/-! ## Invariant and concrete sample data -/

/-- The implicit view invariant: every record of `filteredProducts` occurs
there at most as often as it occurs in `products`. -/
def viewInvariant (s : ProductState) : Prop :=
  ∀ p : Product, s.filteredProducts.count p ≤ s.products.count p

/-- A concrete product record, for witnesses and counterexamples. -/
def sampleProduct (i : Nat) (t : String) (pr : Int) (c : String) : Product :=
  { id := i
    title := t
    price := pr
    description := ""
    category := c
    image := ""
    rating := { rate := 0, count := 0 }
    stock := Option.none
    inStock := Option.none }

/-- A concrete create-form payload, for witnesses and counterexamples. -/
def sampleForm : ProductFormData :=
  { title := "Running Shoe"
    price := 5
    description := ""
    category := "sports"
    image := ""
    stock := 3 }

/-- A concrete slice state with empty product lists, for witnesses. -/
def emptyState : ProductState :=
  { products := []
    filteredProducts := []
    loading := false
    error := Option.none
    searchTerm := ""
    selectedCategory := "all"
    sortBy := SortBy.none
    sortOrder := SortOrder.asc }

/-! ## Helper lemmas about the dedup pass -/

/-- Ids already seen never reappear in the dedup output. -/
theorem dedupByIdAux_countP_zero (i : Nat) (l : List Product) :
    ∀ seen : List Nat, i ∈ seen →
      (dedupByIdAux seen l).countP (fun p => p.id == i) = 0 := by
  induction l with
  | nil => intro seen _; rfl
  | cons p ps ih =>
    intro seen hi
    by_cases hp : p.id ∈ seen
    · simpa [dedupByIdAux, hp] using ih seen hi
    · have hne : p.id ≠ i := fun h => hp (h ▸ hi)
      simp [dedupByIdAux, hp, List.countP_cons, hne,
        ih (p.id :: seen) (List.mem_cons_of_mem _ hi)]

/-- An unseen id occurs exactly once in the dedup output when it occurs in the
input, and not at all otherwise. -/
theorem dedupByIdAux_countP_one (i : Nat) (l : List Product) :
    ∀ seen : List Nat, i ∉ seen →
      (dedupByIdAux seen l).countP (fun p => p.id == i)
        = if i ∈ l.map Product.id then 1 else 0 := by
  induction l with
  | nil => intro seen _; simp [dedupByIdAux]
  | cons p ps ih =>
    intro seen hi
    by_cases hp : p.id ∈ seen
    · have hne : p.id ≠ i := fun h => hi (h ▸ hp)
      simp [dedupByIdAux, hp, ih seen hi, Ne.symm hne]
    · by_cases hip : p.id = i
      · subst hip
        simp [dedupByIdAux, hp, List.countP_cons,
          dedupByIdAux_countP_zero p.id ps (p.id :: seen) (List.mem_cons_self _ _)]
      · have hi' : i ∉ p.id :: seen := by
          intro hx
          rcases List.mem_cons.1 hx with hx | hx
          · exact hip hx.symm
          · exact hi hx
        simp [dedupByIdAux, hp, List.countP_cons, hip, ih (p.id :: seen) hi',
          Ne.symm hip]

/-- The first record carrying an unseen id is the same in the dedup output as
in the input. -/
theorem dedupByIdAux_find_eq (i : Nat) (l : List Product) :
    ∀ seen : List Nat, i ∉ seen →
      (dedupByIdAux seen l).find? (fun p => p.id == i)
        = l.find? (fun p => p.id == i) := by
  induction l with
  | nil => intro seen _; rfl
  | cons p ps ih =>
    intro seen hi
    by_cases hp : p.id ∈ seen
    · have hne : p.id ≠ i := fun h => hi (h ▸ hp)
      simp [dedupByIdAux, hp, List.find?_cons, hne, ih seen hi]
    · by_cases hip : p.id = i
      · subst hip
        simp [dedupByIdAux, hp, List.find?_cons]
      · have hi' : i ∉ p.id :: seen := by
          intro hx
          rcases List.mem_cons.1 hx with hx | hx
          · exact hip hx.symm
          · exact hi hx
        simp [dedupByIdAux, hp, List.find?_cons, hip, ih (p.id :: seen) hi']

/-- The dedup pass only inspects membership of `seen`. -/
theorem dedupByIdAux_congr (l : List Product) :
    ∀ seen₁ seen₂ : List Nat, (∀ i, i ∈ seen₁ ↔ i ∈ seen₂) →
      dedupByIdAux seen₁ l = dedupByIdAux seen₂ l := by
  induction l with
  | nil => intros; rfl
  | cons p ps ih =>
    intro s1 s2 h
    by_cases hp : p.id ∈ s1
    · simp [dedupByIdAux, hp, (h p.id).1 hp, ih s1 s2 h]
    · have hp2 : p.id ∉ s2 := fun hx => hp ((h p.id).2 hx)
      have h' : ∀ i, i ∈ p.id :: s1 ↔ i ∈ p.id :: s2 := by
        intro i; simp [h i]
      simp [dedupByIdAux, hp, hp2, ih (p.id :: s1) (p.id :: s2) h']

/-- Splitting the dedup pass at an append. -/
theorem dedupByIdAux_append (xs ys : List Product) :
    ∀ seen : List Nat,
      dedupByIdAux seen (xs ++ ys)
        = dedupByIdAux seen xs
            ++ dedupByIdAux (xs.map Product.id ++ seen) ys := by
  induction xs with
  | nil => intro seen; simp [dedupByIdAux]
  | cons p ps ih =>
    intro seen
    by_cases hp : p.id ∈ seen
    · simp only [List.cons_append, dedupByIdAux, if_pos hp, List.append_eq,
        ih seen, List.map_cons]
      congr 1
      apply dedupByIdAux_congr
      intro i
      constructor
      · intro hx; simp only [List.cons_append, List.mem_cons]; right; exact hx
      · intro hx
        rcases List.mem_cons.1 hx with hx | hx
        · subst hx; exact List.mem_append_right _ hp
        · exact hx
    · simp only [List.cons_append, dedupByIdAux, if_neg hp, List.append_eq,
        ih (p.id :: seen), List.map_cons]
      congr 2
      apply dedupByIdAux_congr
      intro i
      simp only [List.mem_append, List.mem_cons, List.cons_append]
      tauto

/-- On a list with pairwise distinct ids the dedup pass is a plain filter on
the seen set. -/
theorem dedupByIdAux_of_nodup (l : List Product) :
    ∀ seen : List Nat, (l.map Product.id).Nodup →
      dedupByIdAux seen l = l.filter (fun p => !seen.contains p.id) := by
  induction l with
  | nil => intro seen _; rfl
  | cons p ps ih =>
    intro seen hnd
    rw [List.map_cons, List.nodup_cons] at hnd
    obtain ⟨hpd, hnd⟩ := hnd
    by_cases hp : p.id ∈ seen
    · rw [dedupByIdAux, if_pos hp, List.filter_cons]
      have : ((!seen.contains p.id) = true) = False := by simp [hp]
      simp only [this, if_false]
      exact ih seen hnd
    · rw [dedupByIdAux, if_neg hp, List.filter_cons]
      have : ((!seen.contains p.id) = true) = True := by simp [hp]
      simp only [this, if_true]
      rw [ih (p.id :: seen) hnd]
      congr 1
      apply List.filter_congr
      intro q hq
      have hqp : q.id ≠ p.id :=
        fun h => hpd (h ▸ List.mem_map_of_mem Product.id hq)
      simp [List.contains_cons, hqp]

/-- The dedup pass with an empty seen set is the identity on lists with
pairwise distinct ids. -/
theorem dedupById_of_nodup (l : List Product) (h : (l.map Product.id).Nodup) :
    dedupById l = l := by
  rw [dedupById, dedupByIdAux_of_nodup l [] h]
  simp

/-! ## C1 — merge dedup and local precedence -/

/-- C1: for every local list `L` and remote list `R`, the merge performed by
`getAllProducts` (concatenating `L` before `R` and deduplicating by id keeping
the first occurrence) yields an output in which every id occurs exactly once
(every id present in the input occurs exactly once in the output), and for any
id present in both `L` and `R` the retained record is the one from `L` (the
first record of `L` carrying that id). -/
theorem mergeProducts_unique_ids_local_wins (L R : List Product) (i : Nat) :
    (i ∈ (L ++ R).map Product.id →
      (mergeProducts L R).countP (fun p => p.id == i) = 1) ∧
    (i ∈ L.map Product.id → i ∈ R.map Product.id →
      (mergeProducts L R).find? (fun p => p.id == i)
        = L.find? (fun p => p.id == i)) := by
  constructor
  · intro hmem
    have h := dedupByIdAux_countP_one i (L ++ R) [] (by simp)
    rw [mergeProducts, dedupById, h, if_pos hmem]
  · intro hL _
    have h1 := dedupByIdAux_find_eq i (L ++ R) [] (by simp)
    obtain ⟨p, hpL, hpi⟩ := List.mem_map.1 hL
    have hsome : (L.find? (fun p => p.id == i)).isSome :=
      List.find?_isSome.2 ⟨p, hpL, by simp [hpi]⟩
    obtain ⟨v, hv⟩ := Option.isSome_iff_exists.1 hsome
    rw [mergeProducts, dedupById, h1, List.find?_append, hv, Option.or]

/-- Witness for C1 at concrete lists sharing id 1. -/
theorem mergeProducts_unique_ids_local_wins_witness :
    (mergeProducts [sampleProduct 1 "Local" 5 "sports"]
      [sampleProduct 1 "Remote" 9 "books", sampleProduct 2 "Hat" 3 "sports"]).countP
        (fun p => p.id == 1) = 1 ∧
    (mergeProducts [sampleProduct 1 "Local" 5 "sports"]
      [sampleProduct 1 "Remote" 9 "books", sampleProduct 2 "Hat" 3 "sports"]).find?
        (fun p => p.id == 1)
      = [sampleProduct 1 "Local" 5 "sports"].find? (fun p => p.id == 1) := by
  constructor
  · exact (mergeProducts_unique_ids_local_wins [sampleProduct 1 "Local" 5 "sports"]
      [sampleProduct 1 "Remote" 9 "books", sampleProduct 2 "Hat" 3 "sports"] 1).1
      (by decide)
  · exact (mergeProducts_unique_ids_local_wins [sampleProduct 1 "Local" 5 "sports"]
      [sampleProduct 1 "Remote" 9 "books", sampleProduct 2 "Hat" 3 "sports"] 1).2
      (by decide) (by decide)

/-! ## C5 — merge output order -/

/-- Counterexample to C5 as stated: when the local list itself repeats an id,
the merge drops the later local record, so the output is not the whole local
list followed by the unmatched remote records. -/
theorem mergeProducts_order_cex :
    mergeProducts [sampleProduct 1 "A" 5 "c", sampleProduct 1 "B" 6 "c"] []
      ≠ [sampleProduct 1 "A" 5 "c", sampleProduct 1 "B" 6 "c"]
          ++ List.filter
              (fun r => !((([sampleProduct 1 "A" 5 "c",
                  sampleProduct 1 "B" 6 "c"].map Product.id)).contains r.id)) [] := by
  decide

/-- C5 (amended): when the ids within `L` are pairwise distinct and the ids
within `R` are pairwise distinct, the merge output is exactly the records of
`L` in their given order followed by the records of `R` whose ids do not occur
in `L`, in `R`'s original order. -/
theorem mergeProducts_order (L R : List Product)
    (hL : (L.map Product.id).Nodup) (hR : (R.map Product.id).Nodup) :
    mergeProducts L R
      = L ++ R.filter (fun r => !((L.map Product.id).contains r.id)) := by
  rw [mergeProducts, dedupById, dedupByIdAux_append]
  congr 1
  · rw [dedupByIdAux_of_nodup L [] hL]
    simp
  · rw [dedupByIdAux_congr R (L.map Product.id ++ []) (L.map Product.id) (by simp)]
    exact dedupByIdAux_of_nodup R (L.map Product.id) hR

/-- Witness for the amended C5 at concrete distinct-id lists. -/
theorem mergeProducts_order_witness :
    mergeProducts [sampleProduct 1 "Local" 5 "sports"]
        [sampleProduct 1 "Remote" 9 "books", sampleProduct 2 "Hat" 3 "sports"]
      = [sampleProduct 1 "Local" 5 "sports"]
          ++ List.filter
              (fun r => !((([sampleProduct 1 "Local" 5 "sports"].map Product.id)).contains r.id))
              [sampleProduct 1 "Remote" 9 "books", sampleProduct 2 "Hat" 3 "sports"] :=
  mergeProducts_order [sampleProduct 1 "Local" 5 "sports"]
    [sampleProduct 1 "Remote" 9 "books", sampleProduct 2 "Hat" 3 "sports"]
    (by decide) (by decide)

/-! ## C4 — graceful degradation of getAllProducts -/

/-- Counterexample to C4 as stated: on remote failure the code returns the
stored local list unchanged, without the dedup pass, so the result differs
from the merge with an empty remote set when the local list repeats an id. -/
theorem getAllProducts_failure_cex :
    getAllProducts (fun _ => (1, true)) Option.none
        [sampleProduct 3 "X" 1 "c", sampleProduct 3 "Y" 2 "c"]
      ≠ mergeProducts [sampleProduct 3 "X" 1 "c", sampleProduct 3 "Y" 2 "c"] [] := by
  decide

/-- C4 (amended): when the remote catalog request fails, `getAllProducts`
still returns successfully (the catch branch produces a value) and its result
is exactly the stored local records, unchanged; this coincides with the merge
run against an empty remote set whenever the local ids are pairwise
distinct. -/
theorem getAllProducts_failure_local_only (rand : Nat → Nat × Bool)
    (L : List Product) :
    getAllProducts rand Option.none L = L ∧
    ((L.map Product.id).Nodup →
      getAllProducts rand Option.none L = mergeProducts L []) := by
  refine ⟨rfl, fun h => ?_⟩
  show L = mergeProducts L []
  rw [mergeProducts, List.append_nil, dedupById_of_nodup L h]

/-- Witness for the amended C4 at a concrete distinct-id local list. -/
theorem getAllProducts_failure_local_only_witness :
    getAllProducts (fun _ => (1, true)) Option.none
        [sampleProduct 1 "Local" 5 "sports", sampleProduct 2 "Hat" 3 "sports"]
      = mergeProducts
          [sampleProduct 1 "Local" 5 "sports", sampleProduct 2 "Hat" 3 "sports"] [] :=
  (getAllProducts_failure_local_only (fun _ => (1, true))
    [sampleProduct 1 "Local" 5 "sports", sampleProduct 2 "Hat" 3 "sports"]).2
    (by decide)

/-! ## C6 — createProduct identity, inStock, head insertion -/

/-- The ids assigned by a run of creates are exactly the clock readings, in
most-recent-first order. -/
theorem runCreates_map_id (calls : List (Nat × ProductFormData)) :
    (runCreates calls).map Product.id = (calls.map Prod.fst).reverse := by
  suffices h : ∀ init : List Product,
      (calls.foldl createStep init).map Product.id
        = (calls.map Prod.fst).reverse ++ init.map Product.id by
    simpa using h []
  induction calls with
  | nil => intro init; simp
  | cons c cs ih =>
    intro init
    simp only [List.foldl_cons, List.map_cons, List.reverse_cons]
    rw [ih (createStep init c)]
    simp [createStep, addLocalProduct, buildNewProduct]

/-- Counterexample to C6 as stated: `Date.now()` has millisecond granularity,
so two creates can observe the same (non-decreasing) clock reading; the second
call then assigns an id equal to — not strictly greater than — the previous
one. -/
theorem createProduct_same_clock_cex :
    List.Pairwise (fun a b => a ≤ b) [1000, 1000] ∧
    ¬ ((runCreates [(1000, sampleForm), (1000, sampleForm)]).map Product.id).Pairwise
        (fun a b => a > b) := by
  constructor
  · decide
  · rw [runCreates_map_id]
    decide

/-- C6 (amended): provided the clock readings observed by the successive
create calls are strictly increasing, every call assigns an id strictly
greater than every previously assigned id (the stored most-recent-first id
sequence is strictly decreasing); each create computes
`inStock = (stock > 0)` and inserts the new record at the head of the stored
sequence. -/
theorem createProduct_ids_head_inStock (calls : List (Nat × ProductFormData))
    (hclock : (calls.map Prod.fst).Pairwise (fun a b => a < b)) :
    ((runCreates calls).map Product.id).Pairwise (fun a b => a > b) ∧
    (∀ t d rest, runCreates (rest ++ [(t, d)]) = buildNewProduct t d :: runCreates rest) ∧
    (∀ t d, (buildNewProduct t d).inStock = some (decide (d.stock > 0))) := by
  refine ⟨?_, ?_, fun t d => rfl⟩
  · rw [runCreates_map_id]
    exact List.pairwise_reverse.2 hclock
  · intro t d rest
    simp [runCreates, List.foldl_append, createStep, addLocalProduct]

/-- Witness for the amended C6 at a concrete strictly increasing clock trace. -/
theorem createProduct_ids_head_inStock_witness :
    ((runCreates [(10, sampleForm), (20, sampleForm)]).map Product.id).Pairwise
        (fun a b => a > b) ∧
    runCreates [(10, sampleForm), (20, sampleForm), (30, sampleForm)]
      = buildNewProduct 30 sampleForm :: runCreates [(10, sampleForm), (20, sampleForm)] ∧
    (buildNewProduct 30 sampleForm).inStock = some (decide (sampleForm.stock > 0)) := by
  obtain ⟨h1, h2, h3⟩ :=
    createProduct_ids_head_inStock [(10, sampleForm), (20, sampleForm)] (by decide)
  exact ⟨h1, h2 30 sampleForm [(10, sampleForm), (20, sampleForm)], h3 30 sampleForm⟩

/-! ## C2 — rejected transitions -/

/-- Counterexample to C2 as stated: the slice registers no `loading` reset for
`updateProduct.rejected` (nor for `deleteProduct.rejected`), so from a prior
state with `loading = true` the rejected update leaves `loading = true`. -/
theorem rejected_loading_cex :
    ¬ ((productReducer (SliceAction.updateRejected "boom")
        { products := [], filteredProducts := [], loading := true,
          error := Option.none, searchTerm := "", selectedCategory := "all",
          sortBy := SortBy.none, sortOrder := SortOrder.asc }).loading = false) := by
  decide

/-- C2 (amended): for every prior state and message, rejected `fetch` and
`create` transitions set `loading = false`, while rejected `update` and
`delete` transitions leave `loading` unchanged (the source registers no
`pending`/`loading` handling for them); all four set `error` to the rejection
message and leave `products` and `filteredProducts` untouched. -/
theorem rejected_transitions (s : ProductState) (m : String) :
    (productReducer (SliceAction.fetchRejected m) s).loading = false ∧
    (productReducer (SliceAction.createRejected m) s).loading = false ∧
    (productReducer (SliceAction.updateRejected m) s).loading = s.loading ∧
    (productReducer (SliceAction.deleteRejected m) s).loading = s.loading ∧
    (productReducer (SliceAction.fetchRejected m) s).error = some m ∧
    (productReducer (SliceAction.createRejected m) s).error = some m ∧
    (productReducer (SliceAction.updateRejected m) s).error = some m ∧
    (productReducer (SliceAction.deleteRejected m) s).error = some m ∧
    (productReducer (SliceAction.fetchRejected m) s).products = s.products ∧
    (productReducer (SliceAction.createRejected m) s).products = s.products ∧
    (productReducer (SliceAction.updateRejected m) s).products = s.products ∧
    (productReducer (SliceAction.deleteRejected m) s).products = s.products ∧
    (productReducer (SliceAction.fetchRejected m) s).filteredProducts = s.filteredProducts ∧
    (productReducer (SliceAction.createRejected m) s).filteredProducts = s.filteredProducts ∧
    (productReducer (SliceAction.updateRejected m) s).filteredProducts = s.filteredProducts ∧
    (productReducer (SliceAction.deleteRejected m) s).filteredProducts = s.filteredProducts :=
  ⟨rfl, rfl, rfl, rfl, rfl, rfl, rfl, rfl, rfl, rfl, rfl, rfl, rfl, rfl, rfl, rfl⟩

/-! ## C8 — durable snapshot round-trip -/

/-- C8: loading the snapshot written by `saveStateToStorage` back over any
base state restores exactly the five persisted fields of the original state:
`products`, `searchTerm`, `selectedCategory`, `sortBy`, `sortOrder`. -/
theorem storage_roundtrip (s base : ProductState) :
    (loadStateFromStorage base (some (saveStateToStorage s))).products = s.products ∧
    (loadStateFromStorage base (some (saveStateToStorage s))).searchTerm = s.searchTerm ∧
    (loadStateFromStorage base (some (saveStateToStorage s))).selectedCategory
      = s.selectedCategory ∧
    (loadStateFromStorage base (some (saveStateToStorage s))).sortBy = s.sortBy ∧
    (loadStateFromStorage base (some (saveStateToStorage s))).sortOrder = s.sortOrder :=
  ⟨rfl, rfl, rfl, rfl, rfl⟩

/-! ## C3 — the projection equals the spec's reference definition -/

/-- C3: for every state, the filtered list computed by
`filterAndSortProducts` coincides with the spec's reference projection
(search filter on case-folded title/description when the term is non-empty,
exact category filter when the category is not `"all"`, then the stable sort
by locale-aware title order or numeric price with the sign reversed for
descending order). -/
theorem filterAndSortProducts_matches_spec (s : ProductState) :
    filterAndSortProducts s
      = { s with filteredProducts :=
            (projectSpec s.products s.searchTerm s.selectedCategory
              s.sortBy s.sortOrder) } := by
  have h : filteredList s.products s.searchTerm s.selectedCategory
      s.sortBy s.sortOrder
      = projectSpec s.products s.searchTerm s.selectedCategory
          s.sortBy s.sortOrder := by
    unfold filteredList projectSpec
    cases s.sortBy <;>
      by_cases h1 : s.searchTerm = "" <;>
      by_cases h2 : s.selectedCategory = "all" <;>
      simp [h1, h2, stableSortBy, sortComparator, specSign]
  rw [filterAndSortProducts, h]

/-! ## C7 — projection idempotence without sorting -/

/-- Filtering twice by the same predicate is the same as filtering once. -/
theorem filter_twice (f : Product → Bool) (l : List Product) :
    (l.filter f).filter f = l.filter f :=
  List.filter_eq_self.2 fun _ ha => (List.mem_filter.1 ha).2

/-- Idempotence of a conjunction of two boolean tests. -/
theorem bool_and_idem (x y : Bool) : (x && (y && (x && y))) = (x && y) := by
  cases x <;> cases y <;> rfl

/-- C7: with `sortBy = none` the projection is a pure filter pass, and
applying it twice with the same settings yields the same list as applying it
once. -/
theorem filteredList_noSort_idempotent (P : List Product) (st sc : String)
    (so : SortOrder) :
    filteredList (filteredList P st sc SortBy.none so) st sc SortBy.none so
      = filteredList P st sc SortBy.none so := by
  by_cases h1 : st = "" <;> by_cases h2 : sc = "all"
  · simp [filteredList, h1, h2]
  · simp [filteredList, h1, h2, filter_twice]
  · simp [filteredList, h1, h2, filter_twice]
  · simp [filteredList, h1, h2]
    exact List.filter_congr fun a _ => bool_and_idem _ _

/-! ## C9 — sort-toggle law -/

/-- C9: for every state whose `sortBy` already equals the requested field
(`name` or `price`), the `handleSortChange` handler flips `sortOrder` from
`asc` to `desc` on the first application and back to `asc` on the second;
two applications always restore the initial `sortOrder`. -/
theorem setSorting_toggle (s : ProductState) (f : SortBy)
    (hf : s.sortBy = f) (hnf : f = SortBy.name ∨ f = SortBy.price) :
    (s.sortOrder = SortOrder.asc →
      (handleSortChange s f).sortOrder = SortOrder.desc ∧
      (handleSortChange (handleSortChange s f) f).sortOrder = SortOrder.asc) ∧
    (handleSortChange (handleSortChange s f) f).sortOrder = s.sortOrder := by
  clear hnf
  subst hf
  cases ho : s.sortOrder <;>
    simp [handleSortChange, productReducer, filterAndSortProducts, ho]

/-- Witness for C9 at a concrete state sorted by name ascending. -/
theorem setSorting_toggle_witness :
    (handleSortChange
        { products := [], filteredProducts := [], loading := false,
          error := Option.none, searchTerm := "", selectedCategory := "all",
          sortBy := SortBy.name, sortOrder := SortOrder.asc } SortBy.name).sortOrder
      = SortOrder.desc ∧
    (handleSortChange (handleSortChange
        { products := [], filteredProducts := [], loading := false,
          error := Option.none, searchTerm := "", selectedCategory := "all",
          sortBy := SortBy.name, sortOrder := SortOrder.asc } SortBy.name)
        SortBy.name).sortOrder
      = SortOrder.asc :=
  (setSorting_toggle
    { products := [], filteredProducts := [], loading := false,
      error := Option.none, searchTerm := "", selectedCategory := "all",
      sortBy := SortBy.name, sortOrder := SortOrder.asc }
    SortBy.name rfl (Or.inl rfl)).1 rfl

/-! ## C10 — the filtered view never exceeds the canonical list -/

/-- The projection never duplicates a record beyond its occurrences in the
input list. -/
theorem filteredList_count_le (P : List Product) (st sc : String) (sb : SortBy)
    (so : SortOrder) (p : Product) :
    (filteredList P st sc sb so).count p ≤ P.count p := by
  have hsort : ∀ (cmp : Product → Product → Int) (l : List Product),
      (stableSortBy cmp l).count p = l.count p := fun cmp l =>
    (List.mergeSort_perm l _).count_eq p
  have hfil : ∀ (f : Product → Bool) (l : List Product),
      (l.filter f).count p ≤ l.count p := fun f l =>
    (List.filter_sublist _).count_le p
  unfold filteredList
  cases sb <;> by_cases h1 : st = "" <;> by_cases h2 : sc = "all"
  all_goals simp [h1, h2, hsort]
  all_goals
    first
      | exact le_refl _
      | exact hfil _ _
      | exact le_trans (hfil _ _) (hfil _ _)

/-- C10: every reducer of the slice preserves the view invariant — after any
filter/sort command or any pending/fulfilled/rejected transition, every record
occurs in `filteredProducts` at most as often as in `products` (in particular
no record foreign to `products`, and no extra duplication). -/
theorem reducer_preserves_view_invariant (s : ProductState) (a : SliceAction)
    (h : viewInvariant s) : viewInvariant (productReducer a s) := by
  have hproj : ∀ s' : ProductState, viewInvariant (filterAndSortProducts s') := by
    intro s' p
    exact filteredList_count_le s'.products s'.searchTerm s'.selectedCategory
      s'.sortBy s'.sortOrder p
  cases a with
  | setSearchTerm term => exact hproj _
  | setSelectedCategory category => exact hproj _
  | setSorting sortBy sortOrder => exact hproj _
  | clearError => exact h
  | updateProductStock id stock inStock =>
    by_cases hc : s.products.any (fun p => p.id == id)
    · simpa [productReducer, hc] using hproj
        { s with products := setStockById id stock inStock s.products }
    · simpa [productReducer, hc] using h
  | fetchPending => exact h
  | fetchFulfilled payload => exact hproj _
  | fetchRejected message => exact h
  | createPending => exact h
  | createFulfilled payload => exact hproj _
  | createRejected message => exact h
  | updateFulfilled id data =>
    by_cases hc : s.products.any (fun p => p.id == id)
    · simpa [productReducer, hc] using hproj
        { s with products := updateById id data s.products }
    · simpa [productReducer, hc] using h
  | updateRejected message => exact h
  | deleteFulfilled id => exact hproj _
  | deleteRejected message => exact h

/-- Witness for C10: the invariant holds of the empty state and is preserved
by a concrete search command. -/
theorem reducer_preserves_view_invariant_witness :
    viewInvariant (productReducer (SliceAction.setSearchTerm "shoe") emptyState) := by
  have h0 : viewInvariant emptyState := by
    intro p
    simp [emptyState]
  exact reducer_preserves_view_invariant emptyState
    (SliceAction.setSearchTerm "shoe") h0
